import Mathlib

/-!
Formal model of the auto-mode subsystem of this OpenWebRX fork:
the squelch-triggered audio recorder (`owrx/auto_squelch_recorder.py`),
the auto-mode orchestrator (`owrx/auto_mode_orchestrator.py`),
the client connection monitor (`owrx/client_monitor.py`) and the
automatic tuner (`owrx/auto_tuner.py`).

Python component state is embedded as explicit Lean structures; the
lock-serialized operations of each component are embedded as pure
state-transition functions, and the concurrent executions (audio path,
timer callbacks, stop requests) as interleaved event sequences processed
atomically, which is exactly the serialization that each component's
single lock enforces.  Wall-clock time is modelled by rational
timestamps carried by the events; event sequences are constrained to
have nondecreasing timestamps.
-/

namespace Owrx

/-! ## SquelchRecorder (`owrx/auto_squelch_recorder.py`)

Constants from the top of the file. -/

def MIN_DURATION_SECONDS : ℚ := 3

def SILENCE_TIMEOUT : ℚ := 3

def FREQ_DWELL_SECONDS : ℚ := 2

def AUDIO_RMS_THRESHOLD : ℚ := 15 / 1000

/-- A finished capture that was handed to the asynchronous MP3
conversion task (`threading.Thread(target=self._convert_to_mp3, ...)`):
its frequency and the number of int16 frames staged in the WAV file. -/
structure Capture where
  frequencyHz : Option Nat
  frames : Nat
  deriving DecidableEq

/-- The mutable state of the `SquelchRecorder` singleton.  Fields map
one-to-one onto the Python instance attributes; audio chunks are lists
of float samples (4 bytes each in the byte-level source), and the
staging WAV file is represented by the number of int16 frames written
to it (`writtenFrames`, so the on-disk size is `44 + 2 * writtenFrames`
bytes).  Ghost fields (`completed`, `deletedShort`, `startedCount`,
`totalFramesWritten`, `activeCaptures`, `lastTime`) record observable
history: finished captures handed to conversion, deleted short
captures, how many captures were ever started, total audio frames ever
written, the start times of the captures currently holding an open
staging file, and the timestamp of the last processed event. -/
structure RecState where
  isRecording : Bool
  recordingStartTime : Option ℚ
  currentFrequencyHz : Option Nat
  lastSignalTime : Option ℚ
  silenceTimer : Option ℚ
  chunkCount : Nat
  lastSeenFreq : Option Nat
  freqStableSince : Option ℚ
  writtenFrames : Nat
  completed : List Capture
  deletedShort : Nat
  startedCount : Nat
  totalFramesWritten : Nat
  activeCaptures : List ℚ
  lastTime : ℚ
  deriving DecidableEq

/-- Initial state set up by `SquelchRecorder.__init__`. -/
def initRecState : RecState where
  isRecording := false
  recordingStartTime := none
  currentFrequencyHz := none
  lastSignalTime := none
  silenceTimer := none
  chunkCount := 0
  lastSeenFreq := none
  freqStableSince := none
  writtenFrames := 0
  completed := []
  deletedShort := 0
  startedCount := 0
  totalFramesWritten := 0
  activeCaptures := []
  lastTime := 0

/-- Squared form of `_compute_rms_float`: the source computes
`rms = sqrt(sum(f*f)/n)` and later compares `rms > AUDIO_RMS_THRESHOLD`;
since both sides are nonnegative this comparison is equivalent to
comparing the mean square against the squared threshold, which avoids a
square root on ℚ. -/
def computeRmsSq (samples : List ℚ) : ℚ :=
  if samples.length = 0 then 0
  else (samples.map (fun x => x * x)).sum / samples.length

/-- The chunk's signal test `rms > AUDIO_RMS_THRESHOLD` from
`write_audio_chunk`, in the squared form explained at `computeRmsSq`. -/
def hasSignalChunk (samples : List ℚ) : Bool :=
  decide (AUDIO_RMS_THRESHOLD ^ 2 < computeRmsSq samples)

/-- The boolean result of `_has_frequency_changed`: it returns `True`
only if a previous frequency had been observed and the new non-`None`
value differs from it (`return old_freq is not None`). -/
def hasFrequencyChanged (frequencyHz : Option Nat) (s : RecState) : Bool :=
  match frequencyHz with
  | none => false
  | some f => if s.lastSeenFreq = some f then false else s.lastSeenFreq.isSome

/-- The state update performed by `_has_frequency_changed`: on a
non-`None` frequency that is new or differs from the last seen value it
records the frequency and resets the dwell tracker's stability clock to
now.  (The Python method both mutates and returns the flag; the flag is
`hasFrequencyChanged` above.) -/
def trackFrequency (now : ℚ) (frequencyHz : Option Nat) (s : RecState) : RecState :=
  match frequencyHz with
  | none => s
  | some f =>
      if s.lastSeenFreq = some f then s
      else { s with lastSeenFreq := some f, freqStableSince := some now }

/-- Model of `_frequency_dwelled`: true when the current frequency has been
stable for at least `FREQ_DWELL_SECONDS`. -/
def frequencyDwelled (now : ℚ) (s : RecState) : Bool :=
  match s.freqStableSince with
  | none => false
  | some since => decide (FREQ_DWELL_SECONDS ≤ now - since)

/-- Model of `_start_recording`: opens a fresh staging WAV file (12 kHz, mono,
16-bit), records the frequency and sets
`recording_start_time = last_signal_time = now`, `is_recording = True`,
`chunk_count = 0`. -/
def startRecording (now : ℚ) (frequencyHz : Option Nat) (s : RecState) : RecState :=
  { s with
    currentFrequencyHz := frequencyHz
    recordingStartTime := some now
    lastSignalTime := some now
    isRecording := true
    chunkCount := 0
    writtenFrames := 0
    startedCount := s.startedCount + 1
    activeCaptures := s.activeCaptures ++ [now] }

/-- Size in bytes of the staging WAV file
(44-byte canonical PCM header plus 2 bytes per int16 frame), as read
back by `wav_path.stat().st_size` in `_stop_recording`. -/
def wavFileSize (s : RecState) : Nat :=
  44 + 2 * s.writtenFrames

/-- The audio-derived duration computed by `_stop_recording`:
`max(0, wav_size - 44) / 24000.0` (12 kHz · 16 bit · mono = 24000
bytes per second); the `max 0` is Nat truncated subtraction here. -/
def audioDerivedDuration (s : RecState) : ℚ :=
  ((wavFileSize s - 44 : Nat) : ℚ) / 24000

/-- Model of `_stop_recording`: no-op unless recording; otherwise cancels the
silence timer, closes the staging file, clears the recording state, and
either deletes the staging file (audio-derived duration strictly below
`MIN_DURATION_SECONDS`) or hands it to the asynchronous MP3 conversion
thread. -/
def stopRecording (s : RecState) : RecState :=
  if s.isRecording then
    let s1 := { s with silenceTimer := none, isRecording := false, activeCaptures := [] }
    if audioDerivedDuration s < MIN_DURATION_SECONDS then
      { s1 with deletedShort := s1.deletedShort + 1 }
    else
      { s1 with completed := s1.completed ++ [⟨s.currentFrequencyHz, s.writtenFrames⟩] }
  else s

/-- Model of `_on_silence_timeout`: under the recorder's lock, re-checks that a
capture is active and that the elapsed time since `last_signal_time`
still reaches `SILENCE_TIMEOUT` before stopping. -/
def onSilenceTimeout (now : ℚ) (s : RecState) : RecState :=
  if s.isRecording then
    match s.lastSignalTime with
    | some last => if SILENCE_TIMEOUT ≤ now - last then stopRecording s else s
    | none => s
  else s

/-- Appends a converted chunk to the open staging file
(`self.current_wavfile.writeframes(int16_data)`): each float sample
becomes one int16 frame. -/
def appendChunk (frames : Nat) (s : RecState) : RecState :=
  { s with
    writtenFrames := s.writtenFrames + frames
    totalFramesWritten := s.totalFramesWritten + frames }

/-- The frequency-change handling at the top of `write_audio_chunk`'s
locked section: run `_has_frequency_changed` and, if it reported a
change while a capture is active, stop the capture immediately. -/
def freqStep (now : ℚ) (frequencyHz : Option Nat) (s : RecState) : RecState :=
  let s1 := trackFrequency now frequencyHz s
  if hasFrequencyChanged frequencyHz s && s1.isRecording then stopRecording s1 else s1

/-- The signal branch of `write_audio_chunk`: start a capture when none
is active, refresh `last_signal_time`, count and append the chunk, and
rearm the silence timer (`_schedule_silence_timeout` cancels any pending
timer and replaces it with the deadline `now + SILENCE_TIMEOUT`). -/
def signalStep (now : ℚ) (frames : Nat) (frequencyHz : Option Nat)
    (s2 : RecState) : RecState :=
  let s3 := if s2.isRecording then s2 else startRecording now frequencyHz s2
  let s4 := { s3 with lastSignalTime := some now, chunkCount := s3.chunkCount + 1 }
  let s5 := appendChunk frames s4
  { s5 with silenceTimer := some (now + SILENCE_TIMEOUT) }

/-- Model of `write_audio_chunk`: the whole per-chunk algorithm, executed under
the recorder's lock.  A chunk shorter than one float sample
(`len(audio_data) < 4`) is discarded up front, so `samples = []` models
that case; the dwell gate returns before anything else happens when the
current frequency has not been stable for `FREQ_DWELL_SECONDS`. -/
def writeAudioChunk (now : ℚ) (samples : List ℚ) (frequencyHz : Option Nat)
    (s : RecState) : RecState :=
  if samples.length = 0 then s
  else
    let s2 := freqStep now frequencyHz s
    if frequencyDwelled now s2 then
      if hasSignalChunk samples then
        signalStep now samples.length frequencyHz s2
      else if s2.isRecording then
        appendChunk samples.length { s2 with chunkCount := s2.chunkCount + 1 }
      else s2
    else s2

/-- The concurrent executions that touch the recorder state, serialized
by the recorder's single lock: an audio chunk delivered by the DSP
chain, a silence-timer callback firing, and an explicit stop request
(shutdown flush).  Timer events are allowed at arbitrary times, which
over-approximates stale fires of already-cancelled timers; the
callback's own under-lock re-check makes those harmless. -/
inductive REvent where
  | chunk (time : ℚ) (samples : List ℚ) (frequencyHz : Option Nat)
  | fire (time : ℚ)
  | stopReq (time : ℚ)
  deriving DecidableEq

def REvent.time : REvent → ℚ
  | .chunk t _ _ => t
  | .fire t => t
  | .stopReq t => t

/-- Process one serialized event and record its timestamp. -/
def applyEvent (e : REvent) (s : RecState) : RecState :=
  let s1 := match e with
    | .chunk t samples f => writeAudioChunk t samples f s
    | .fire t => onSilenceTimeout t s
    | .stopReq _ => stopRecording s
  { s1 with lastTime := e.time }

/-- Timestamps along an event list are nondecreasing and start no
earlier than `t`. -/
def chrono : ℚ → List REvent → Bool
  | _, [] => true
  | t, e :: es => decide (t ≤ e.time) && chrono e.time es

def runEvents (s : RecState) (es : List REvent) : RecState :=
  es.foldl (fun a e => applyEvent e a) s

/-- A recorder state reachable from initialization through some
chronologically ordered event sequence. -/
def RecReachable (s : RecState) : Prop :=
  ∃ es, chrono 0 es = true ∧ s = runEvents initRecState es

/-- Invariant over all reachable recorder states:
(1) exactly one staging file is open iff a capture is active (so never
    more than one capture at any instant);
(2) while a capture is active the current frequency's stability clock
    predates the last processed event by at least the dwell time;
(3) a set stability clock implies an observed frequency. -/
def RecInv (s : RecState) : Prop :=
  s.activeCaptures.length = (if s.isRecording then 1 else 0) ∧
  (s.isRecording = true →
    ∃ st, s.freqStableSince = some st ∧ st + FREQ_DWELL_SECONDS ≤ s.lastTime) ∧
  (s.freqStableSince.isSome = true → s.lastSeenFreq.isSome = true)

/-! ## AutoModeOrchestrator (`owrx/auto_mode_orchestrator.py`) -/

/-- The `AutoModeState` enum: `MANUAL`, `IDLE`, `AUTO`. -/
inductive AutoModeState where
  | manual
  | idle
  | auto
  deriving DecidableEq

/-- The dictionary returned by `AutoTuner.get_current_settings`, saved
by the orchestrator on entry to AUTO and restored on exit. -/
structure TunerSettings where
  frequency : Option Nat
  mode : Option String
  squelch : Option ℚ
  bandwidth : Option Nat
  isAutoMode : Bool
  deriving DecidableEq

/-- Orchestrator state relevant to entering and exiting AUTO mode.
`hasTuner`/`hasDecoder`/`hasRecorder` model which component references
were wired by `set_components` (they never change afterwards);
`tunerCurrent` is what `auto_tuner.get_current_settings()` reports when
a snapshot is taken.  Ghost observation logs: `restores` records every
`auto_tuner.restore_settings(...)` call with its argument,
`decoderStopSessions` / `recorderStops` / `exitNotifications` count the
corresponding collaborator calls, and `tunerAutoFlag` mirrors
`auto_tuner.is_auto_mode`. -/
structure OrchState where
  state : AutoModeState
  savedUserSettings : Option TunerSettings
  currentFrequencyIndex : Nat
  hasTuner : Bool
  hasDecoder : Bool
  hasRecorder : Bool
  tunerCurrent : TunerSettings
  restores : List TunerSettings
  decoderStopSessions : Nat
  recorderStops : Nat
  exitNotifications : Nat
  tunerAutoFlag : Bool
  deriving DecidableEq

/-- Model of `_enter_auto_mode` (no-exception path): snapshot the tuner settings,
set state to AUTO, notify the tuner, reset the scan index to 0. -/
def enterAutoMode (s : OrchState) : OrchState :=
  let s1 := if s.hasTuner then { s with savedUserSettings := some s.tunerCurrent } else s
  let s2 := { s1 with state := AutoModeState.auto }
  let s3 := if s2.hasTuner then { s2 with tunerAutoFlag := true } else s2
  { s3 with currentFrequencyIndex := 0 }

/-- Model of `_exit_auto_mode`: records the old state, sets state to MANUAL
first, and returns immediately unless the old state was AUTO; otherwise
stops the decoder session, stops the recorder, restores the saved user
settings through the tuner and clears the snapshot (the saved settings
dictionary is never empty, so Python truthiness of
`self.saved_user_settings` is `≠ None`), and finally notifies the tuner
that manual control resumed. -/
def exitAutoMode (s : OrchState) : OrchState :=
  let old := s.state
  let s0 := { s with state := AutoModeState.manual }
  if old = AutoModeState.auto then
    let s1 := if s0.hasDecoder then
        { s0 with decoderStopSessions := s0.decoderStopSessions + 1 } else s0
    let s2 := if s1.hasRecorder then
        { s1 with recorderStops := s1.recorderStops + 1 } else s1
    let s3 := if s2.hasTuner then
        match s2.savedUserSettings with
        | some v => { s2 with restores := s2.restores ++ [v], savedUserSettings := none }
        | none => s2
      else s2
    if s3.hasTuner then
      { s3 with tunerAutoFlag := false, exitNotifications := s3.exitNotifications + 1 }
    else s3
  else s0

/-- The orchestrator entry points that can change `state`:
`_on_clients_gone` and `force_enter_auto_mode` enter AUTO only from
MANUAL; `_on_client_connected`, `force_exit_auto_mode` and `stop` exit
only when currently in AUTO. -/
inductive OrchEvent where
  | clientsGone
  | clientConn
  | forceEnter
  | forceExit
  | stopOrch
  deriving DecidableEq

def orchStep (s : OrchState) (e : OrchEvent) : OrchState :=
  match e with
  | .clientsGone => if s.state = AutoModeState.manual then enterAutoMode s else s
  | .clientConn => if s.state = AutoModeState.auto then exitAutoMode s else s
  | .forceEnter => if s.state = AutoModeState.manual then enterAutoMode s else s
  | .forceExit => if s.state = AutoModeState.auto then exitAutoMode s else s
  | .stopOrch => if s.state = AutoModeState.auto then exitAutoMode s else s

/-- Orchestrator state after `__init__` and `set_components`. -/
def initOrchState (ht hd hr : Bool) (tc : TunerSettings) : OrchState where
  state := AutoModeState.manual
  savedUserSettings := none
  currentFrequencyIndex := 0
  hasTuner := ht
  hasDecoder := hd
  hasRecorder := hr
  tunerCurrent := tc
  restores := []
  decoderStopSessions := 0
  recorderStops := 0
  exitNotifications := 0
  tunerAutoFlag := false

def OrchReachable (s : OrchState) : Prop :=
  ∃ (ht hd hr : Bool) (tc : TunerSettings) (es : List OrchEvent),
    s = es.foldl orchStep (initOrchState ht hd hr tc)

/-! ## The scan loop body `_handle_auto_mode` -/

/-- One frequency entry of the orchestrator configuration. -/
structure FreqConfig where
  frequency : Nat
  mode : String
  squelch : Option ℚ
  bandwidth : Option Nat
  dwellTime : Nat
  label : String
  deriving DecidableEq

instance : Inhabited FreqConfig := ⟨⟨0, "", none, none, 0, ""⟩⟩

/-- Environment of one `_handle_auto_mode` iteration: which
collaborators are wired and enabled, what `auto_tuner.tune_frequency`
returned, and the value of `self.state` observed after the interruptible
dwell wait (the callbacks fire on other execution contexts, so the
iteration sees it as an input). -/
structure ScanEnv where
  hasTuner : Bool
  tuneSuccess : Bool
  hasDecoder : Bool
  enableDecoders : Bool
  hasRecorder : Bool
  enableRecording : Bool
  stateAfterDwell : AutoModeState
  deriving DecidableEq

/-- The scan-loop state touched by one iteration, with ghost logs:
`backoffs` counts the backoff waits (`time.sleep(5)` after a tuning
failure, `time.sleep(10)` when no frequencies are configured), and
`decoderSessions` counts `decoder_manager.start_session` calls. -/
structure ScanState where
  currentFrequencyIndex : Nat
  frequencies : List FreqConfig
  backoffs : Nat
  decoderSessions : Nat
  deriving DecidableEq

/-- The profile `self.frequencies[self.current_frequency_index]` that an
iteration starting from `s` examines. -/
def examinedProfile (s : ScanState) : FreqConfig :=
  s.frequencies.getD s.currentFrequencyIndex default

/-- Model of `_handle_auto_mode`: one iteration of the scan loop in state AUTO.
An empty frequency list or a tuning failure leaves the index unchanged
and backs off; otherwise the iteration settles, runs the decoder and
recorder over the dwell, and advances the index modulo the list length
only if the state observed after the dwell is still AUTO. -/
def handleAutoMode (env : ScanEnv) (s : ScanState) : ScanState :=
  if s.frequencies.isEmpty then { s with backoffs := s.backoffs + 1 }
  else if env.hasTuner && !env.tuneSuccess then { s with backoffs := s.backoffs + 1 }
  else
    let s1 := if env.hasDecoder && env.enableDecoders then
        { s with decoderSessions := s.decoderSessions + 1 } else s
    if env.stateAfterDwell = AutoModeState.auto then
      { s1 with currentFrequencyIndex :=
          (s1.currentFrequencyIndex + 1) % s1.frequencies.length }
    else s1

/-! ## ClientMonitor (`owrx/client_monitor.py`)

Addresses are modelled post-parsing: `some a` is a successfully parsed
IPv4 address (as a 32-bit number) and `none` an unparsable address,
which `is_local_ip` fails safe on (treated as non-local).  A whitelist
entry is either an exact address or a CIDR network. -/

inductive IpEntry where
  | exact (a : Nat)
  | cidr (a : Nat) (maskLen : Nat)
  deriving DecidableEq

/-- Membership test of one whitelist entry, mirroring
`ip == ip_address(network_str)` and `ip in ip_network(network_str,
strict=False)` (the CIDR test compares the network-prefix bits). -/
def matchesEntry (ip : Nat) : IpEntry → Bool
  | .exact a => decide (ip = a)
  | .cidr a maskLen => decide (ip / 2 ^ (32 - maskLen) = a / 2 ^ (32 - maskLen))

structure MonitorConfig where
  considerLocalClients : Bool
  localIpWhitelist : List IpEntry
  deriving DecidableEq

/-- Model of `is_local_ip`: an address is local iff it parses and matches some
whitelist entry; unparsable addresses are non-local. -/
def isLocalIp (cfg : MonitorConfig) : Option Nat → Bool
  | none => false
  | some ip => cfg.localIpWhitelist.any (matchesEntry ip)

/-- The tracked client mapping `self.clients` (client id → address),
as an association list with unique ids like the Python dict. -/
structure MonState where
  clients : List (String × Option Nat)
  deriving DecidableEq

def initMonState : MonState := ⟨[]⟩

/-- Model of `client_connected`: `self.clients[client_id] = client` — insert or
overwrite the entry for this id. -/
def clientConnected (id : String) (ip : Option Nat) (s : MonState) : MonState :=
  ⟨s.clients.filter (fun p => p.1 ≠ id) ++ [(id, ip)]⟩

/-- Model of `client_disconnected`: `del self.clients[client_id]` when the id is
tracked, otherwise nothing. -/
def clientDisconnected (id : String) (s : MonState) : MonState :=
  ⟨s.clients.filter (fun p => p.1 ≠ id)⟩

/-- Model of `has_remote_clients`: with `consider_local_clients` every tracked
client counts; otherwise some tracked client must classify as remote
under `is_local_ip` evaluated now. -/
def hasRemoteClients (cfg : MonitorConfig) (s : MonState) : Bool :=
  if cfg.considerLocalClients then decide (0 < s.clients.length)
  else s.clients.any (fun p => !(isLocalIp cfg p.2))

inductive MOp where
  | connect (id : String) (ip : Option Nat)
  | disconnect (id : String)
  deriving DecidableEq

def monStep (s : MonState) (op : MOp) : MonState :=
  match op with
  | .connect id ip => clientConnected id ip s
  | .disconnect id => clientDisconnected id s

def runMonitor (ops : List MOp) : MonState :=
  ops.foldl monStep initMonState

/-! ## AutoTuner (`owrx/auto_tuner.py`)

Capability probing (`hasattr(self.receiver, ...)` and
`getDm()`-mediated method lookups) is collapsed to one boolean per
probed method chain: the flag is true when that chain exists and its
call succeeds. -/

structure Receiver where
  hasSetFrequency : Bool
  hasProfileCenterFreq : Bool
  hasDmSetFrequency : Bool
  hasDmSetMode : Bool
  hasSetDemodulator : Bool
  hasDmSetSquelchLevel : Bool
  hasSetSquelch : Bool
  hasDmSetBandwidth : Bool
  hasSetBandwidth : Bool
  deriving DecidableEq

/-- Model of `_set_frequency`: method 1 `setFrequency`, method 2
`profile.center_freq`, method 3 `getDm().set_frequency`; fails when no
method is available. -/
def setFrequencyCap (r : Receiver) : Bool :=
  r.hasSetFrequency || r.hasProfileCenterFreq || r.hasDmSetFrequency

/-- Model of `_set_mode`: `getDm().set_mode` or `setDemodulator`. -/
def setModeCap (r : Receiver) : Bool :=
  r.hasDmSetMode || r.hasSetDemodulator

/-- Model of `_set_squelch`: `getDm().set_squelch_level` or `setSquelch`. -/
def setSquelchCap (r : Receiver) : Bool :=
  r.hasDmSetSquelchLevel || r.hasSetSquelch

/-- Model of `_set_bandwidth`: `getDm().set_bandwidth` or `setBandwidth`. -/
def setBandwidthCap (r : Receiver) : Bool :=
  r.hasDmSetBandwidth || r.hasSetBandwidth

/-- The `AutoTuner` mutable fields touched by `tune_frequency`, with a
ghost `warnings` counter for the `logger.warning("Failed to set ...")`
soft-failure logs. -/
structure TunerState where
  currentFrequency : Option Nat
  currentMode : Option String
  currentSquelch : Option ℚ
  currentBandwidth : Option Nat
  warnings : Nat
  deriving DecidableEq

def initTunerState : TunerState := ⟨none, none, none, none, 0⟩

/-- Model of `tune_frequency`: fails when no receiver is attached or when
`_set_frequency` fails; mode, squelch and bandwidth are then each
attempted independently — a failure is logged as a warning and the
overall call still returns `True`.  Python truthiness of the optional
arguments is preserved: `if mode:` skips `None` and the empty string,
`if squelch is not None:` skips only `None`, `if bandwidth:` skips
`None` and `0`. -/
def tuneFrequency (receiver : Option Receiver) (frequency : Nat)
    (mode : Option String) (squelch : Option ℚ) (bandwidth : Option Nat)
    (s : TunerState) : Bool × TunerState :=
  match receiver with
  | none => (false, s)
  | some r =>
      if !setFrequencyCap r then (false, s)
      else
        let s1 := { s with currentFrequency := some frequency }
        let s2 := match mode with
          | some m =>
              if m = "" then s1
              else if setModeCap r then { s1 with currentMode := some m }
              else { s1 with warnings := s1.warnings + 1 }
          | none => s1
        let s3 := match squelch with
          | some q =>
              if setSquelchCap r then { s2 with currentSquelch := some q }
              else { s2 with warnings := s2.warnings + 1 }
          | none => s2
        let s4 := match bandwidth with
          | some b =>
              if b = 0 then s3
              else if setBandwidthCap r then { s3 with currentBandwidth := some b }
              else { s3 with warnings := s3.warnings + 1 }
          | none => s3
        (true, s4)

/-! ### Basic facts about the recorder's transition functions -/

@[simp] lemma stopRecording_isRecording (s : RecState) :
    (stopRecording s).isRecording = false := by
  unfold stopRecording
  split
  · split <;> rfl
  · simp_all

lemma stopRecording_eq_of_not (s : RecState) (h : s.isRecording = false) :
    stopRecording s = s := by
  simp [stopRecording, h]

lemma stopRecording_activeCaptures_nil (s : RecState) (h : s.isRecording = true) :
    (stopRecording s).activeCaptures = [] := by
  simp only [stopRecording, h, if_true]
  split <;> rfl

@[simp] lemma stopRecording_freqStableSince (s : RecState) :
    (stopRecording s).freqStableSince = s.freqStableSince := by
  unfold stopRecording; split
  · split <;> rfl
  · rfl

@[simp] lemma stopRecording_lastSeenFreq (s : RecState) :
    (stopRecording s).lastSeenFreq = s.lastSeenFreq := by
  unfold stopRecording; split
  · split <;> rfl
  · rfl

@[simp] lemma stopRecording_lastTime (s : RecState) :
    (stopRecording s).lastTime = s.lastTime := by
  unfold stopRecording; split
  · split <;> rfl
  · rfl

@[simp] lemma stopRecording_startedCount (s : RecState) :
    (stopRecording s).startedCount = s.startedCount := by
  unfold stopRecording; split
  · split <;> rfl
  · rfl

@[simp] lemma stopRecording_totalFramesWritten (s : RecState) :
    (stopRecording s).totalFramesWritten = s.totalFramesWritten := by
  unfold stopRecording; split
  · split <;> rfl
  · rfl

@[simp] lemma trackFrequency_isRecording (now : ℚ) (f : Option Nat) (s : RecState) :
    (trackFrequency now f s).isRecording = s.isRecording := by
  cases f with
  | none => rfl
  | some g => by_cases h : s.lastSeenFreq = some g <;> simp [trackFrequency, h]

@[simp] lemma trackFrequency_activeCaptures (now : ℚ) (f : Option Nat) (s : RecState) :
    (trackFrequency now f s).activeCaptures = s.activeCaptures := by
  cases f with
  | none => rfl
  | some g => by_cases h : s.lastSeenFreq = some g <;> simp [trackFrequency, h]

@[simp] lemma trackFrequency_startedCount (now : ℚ) (f : Option Nat) (s : RecState) :
    (trackFrequency now f s).startedCount = s.startedCount := by
  cases f with
  | none => rfl
  | some g => by_cases h : s.lastSeenFreq = some g <;> simp [trackFrequency, h]

@[simp] lemma trackFrequency_lastTime (now : ℚ) (f : Option Nat) (s : RecState) :
    (trackFrequency now f s).lastTime = s.lastTime := by
  cases f with
  | none => rfl
  | some g => by_cases h : s.lastSeenFreq = some g <;> simp [trackFrequency, h]

@[simp] lemma trackFrequency_writtenFrames (now : ℚ) (f : Option Nat) (s : RecState) :
    (trackFrequency now f s).writtenFrames = s.writtenFrames := by
  cases f with
  | none => rfl
  | some g => by_cases h : s.lastSeenFreq = some g <;> simp [trackFrequency, h]

@[simp] lemma trackFrequency_totalFramesWritten (now : ℚ) (f : Option Nat) (s : RecState) :
    (trackFrequency now f s).totalFramesWritten = s.totalFramesWritten := by
  cases f with
  | none => rfl
  | some g => by_cases h : s.lastSeenFreq = some g <;> simp [trackFrequency, h]

@[simp] lemma trackFrequency_completed (now : ℚ) (f : Option Nat) (s : RecState) :
    (trackFrequency now f s).completed = s.completed := by
  cases f with
  | none => rfl
  | some g => by_cases h : s.lastSeenFreq = some g <;> simp [trackFrequency, h]

@[simp] lemma trackFrequency_deletedShort (now : ℚ) (f : Option Nat) (s : RecState) :
    (trackFrequency now f s).deletedShort = s.deletedShort := by
  cases f with
  | none => rfl
  | some g => by_cases h : s.lastSeenFreq = some g <;> simp [trackFrequency, h]

lemma trackFrequency_freqStableSince (now : ℚ) (f : Option Nat) (s : RecState) :
    (trackFrequency now f s).freqStableSince = s.freqStableSince ∨
    (trackFrequency now f s).freqStableSince = some now := by
  cases f with
  | none => exact Or.inl rfl
  | some g =>
      by_cases h : s.lastSeenFreq = some g
      · exact Or.inl (by simp [trackFrequency, h])
      · exact Or.inr (by simp [trackFrequency, h])

lemma trackFrequency_lastSeen_isSome (now : ℚ) (f : Option Nat) (s : RecState)
    (h : s.lastSeenFreq.isSome = true) :
    (trackFrequency now f s).lastSeenFreq.isSome = true := by
  cases f with
  | none => exact h
  | some g =>
      by_cases hg : s.lastSeenFreq = some g <;> simp [trackFrequency, hg, h]

/-- When the dwell gate passes at time `now`, the stability clock was
set at some instant at least `FREQ_DWELL_SECONDS` in the past. -/
lemma frequencyDwelled_bound (now : ℚ) (s : RecState)
    (h : frequencyDwelled now s = true) :
    ∃ st, s.freqStableSince = some st ∧ st + FREQ_DWELL_SECONDS ≤ now := by
  unfold frequencyDwelled at h
  cases hst : s.freqStableSince with
  | none => rw [hst] at h; exact absurd h (by simp)
  | some st =>
      rw [hst] at h
      have := of_decide_eq_true h
      exact ⟨st, rfl, by linarith⟩

lemma frequencyDwelled_of_bound (now : ℚ) (s : RecState)
    (st : ℚ) (hst : s.freqStableSince = some st)
    (h : st + FREQ_DWELL_SECONDS ≤ now) :
    frequencyDwelled now s = true := by
  unfold frequencyDwelled
  rw [hst]
  exact decide_eq_true (by linarith)

/-! ### The single-active-capture invariant -/

lemma recInv_init : RecInv initRecState := by
  refine ⟨rfl, ?_, ?_⟩ <;> intro h <;> simp [initRecState] at h

/-- If the recorder is recording and the chunk's frequency does not
differ from the last observed one, the frequency-handling step changes
nothing. -/
lemma trackFrequency_of_recording (now : ℚ) (f : Option Nat) (s : RecState)
    (hInv : RecInv s) (hrec : s.isRecording = true)
    (hnc : hasFrequencyChanged f s = false ∨ f = none ∨ f = s.lastSeenFreq) :
    trackFrequency now f s = s := by
  obtain ⟨-, h2, h3⟩ := hInv
  obtain ⟨st, hst, -⟩ := h2 hrec
  have hsome : s.lastSeenFreq.isSome = true := h3 (by rw [hst]; rfl)
  cases f with
  | none => rfl
  | some x =>
      by_cases hx : s.lastSeenFreq = some x
      · simp [trackFrequency, hx]
      · rcases hnc with hfc | hne | hfl
        · simp only [hasFrequencyChanged] at hfc
          rw [if_neg hx] at hfc
          rw [hsome] at hfc
          cases hfc
        · cases hne
        · exact absurd hfl.symm hx

/-! ### Branch equations for `freqStep`, `signalStep`, `writeAudioChunk` -/

@[simp] lemma freqStep_lastTime (now : ℚ) (f : Option Nat) (s : RecState) :
    (freqStep now f s).lastTime = s.lastTime := by
  simp only [freqStep]; split <;> simp

@[simp] lemma freqStep_startedCount (now : ℚ) (f : Option Nat) (s : RecState) :
    (freqStep now f s).startedCount = s.startedCount := by
  simp only [freqStep]; split <;> simp

@[simp] lemma freqStep_totalFramesWritten (now : ℚ) (f : Option Nat) (s : RecState) :
    (freqStep now f s).totalFramesWritten = s.totalFramesWritten := by
  simp only [freqStep]; split <;> simp

lemma freqStep_freqStableSince (now : ℚ) (f : Option Nat) (s : RecState) :
    (freqStep now f s).freqStableSince = s.freqStableSince ∨
    (freqStep now f s).freqStableSince = some now := by
  simp only [freqStep]
  split
  · rw [stopRecording_freqStableSince]
    exact trackFrequency_freqStableSince now f s
  · exact trackFrequency_freqStableSince now f s

lemma freqStep_inv3 (now : ℚ) (f : Option Nat) (s : RecState)
    (h3 : s.freqStableSince.isSome = true → s.lastSeenFreq.isSome = true)
    (hq : (freqStep now f s).freqStableSince.isSome = true) :
    (freqStep now f s).lastSeenFreq.isSome = true := by
  have key : (trackFrequency now f s).freqStableSince.isSome = true →
      (trackFrequency now f s).lastSeenFreq.isSome = true := by
    cases f with
    | none => exact h3
    | some g =>
        by_cases hg : s.lastSeenFreq = some g <;> simp [trackFrequency, hg, h3]
  simp only [freqStep] at hq ⊢
  split at hq <;> rename_i hc
  · rw [stopRecording_freqStableSince] at hq
    rw [if_pos hc, stopRecording_lastSeenFreq]
    exact key hq
  · rw [if_neg hc]
    exact key hq

lemma freqStep_captures (now : ℚ) (f : Option Nat) (s : RecState)
    (h1 : s.activeCaptures.length = if s.isRecording then 1 else 0) :
    (freqStep now f s).activeCaptures.length =
      if (freqStep now f s).isRecording then 1 else 0 := by
  simp only [freqStep]
  split <;> rename_i hc
  · have hrec : (trackFrequency now f s).isRecording = true := by
      have h' := hc
      simp only [Bool.and_eq_true] at h'
      exact h'.2
    rw [stopRecording_isRecording,
      stopRecording_activeCaptures_nil _ hrec]
    rfl
  · simpa using h1

/-- If the recorder comes out of the frequency-change handling still
recording, then nothing changed: the chunk carried no new frequency. -/
lemma freqStep_of_recording (now : ℚ) (f : Option Nat) (s : RecState)
    (hInv : RecInv s) (hrec : (freqStep now f s).isRecording = true) :
    freqStep now f s = s ∧ s.isRecording = true := by
  by_cases hc : (hasFrequencyChanged f s && (trackFrequency now f s).isRecording) = true
  · exfalso
    simp only [freqStep] at hrec
    rw [if_pos hc, stopRecording_isRecording] at hrec
    cases hrec
  · simp only [freqStep] at hrec ⊢
    rw [if_neg hc] at hrec ⊢
    have hsrec : s.isRecording = true := by
      rw [← trackFrequency_isRecording now f s]; exact hrec
    have hflag : hasFrequencyChanged f s = false := by
      cases hq : hasFrequencyChanged f s
      · rfl
      · exact absurd (by rw [hq, trackFrequency_isRecording, hsrec]; rfl) hc
    exact ⟨trackFrequency_of_recording now f s hInv hsrec (Or.inl hflag), hsrec⟩

@[simp] lemma signalStep_isRecording (now : ℚ) (n : Nat) (f : Option Nat)
    (s2 : RecState) : (signalStep now n f s2).isRecording = s2.isRecording ∨
    (signalStep now n f s2).isRecording = true := by
  by_cases hr : s2.isRecording = true <;>
    simp [signalStep, hr, appendChunk, startRecording]

lemma signalStep_isRecording_true (now : ℚ) (n : Nat) (f : Option Nat)
    (s2 : RecState) : (signalStep now n f s2).isRecording = true := by
  by_cases hr : s2.isRecording = true <;>
    simp [signalStep, hr, appendChunk, startRecording]

@[simp] lemma signalStep_freqStableSince (now : ℚ) (n : Nat) (f : Option Nat)
    (s2 : RecState) : (signalStep now n f s2).freqStableSince = s2.freqStableSince := by
  by_cases hr : s2.isRecording = true <;>
    simp [signalStep, hr, appendChunk, startRecording]

@[simp] lemma signalStep_lastSeenFreq (now : ℚ) (n : Nat) (f : Option Nat)
    (s2 : RecState) : (signalStep now n f s2).lastSeenFreq = s2.lastSeenFreq := by
  by_cases hr : s2.isRecording = true <;>
    simp [signalStep, hr, appendChunk, startRecording]

@[simp] lemma signalStep_silenceTimer (now : ℚ) (n : Nat) (f : Option Nat)
    (s2 : RecState) :
    (signalStep now n f s2).silenceTimer = some (now + SILENCE_TIMEOUT) := by
  by_cases hr : s2.isRecording = true <;>
    simp [signalStep, hr, appendChunk, startRecording]

@[simp] lemma signalStep_lastSignalTime (now : ℚ) (n : Nat) (f : Option Nat)
    (s2 : RecState) : (signalStep now n f s2).lastSignalTime = some now := by
  by_cases hr : s2.isRecording = true <;>
    simp [signalStep, hr, appendChunk, startRecording]

lemma signalStep_activeCaptures (now : ℚ) (n : Nat) (f : Option Nat)
    (s2 : RecState) : (signalStep now n f s2).activeCaptures =
      if s2.isRecording then s2.activeCaptures else s2.activeCaptures ++ [now] := by
  by_cases hr : s2.isRecording = true <;>
    simp [signalStep, hr, appendChunk, startRecording]

lemma signalStep_startedCount (now : ℚ) (n : Nat) (f : Option Nat)
    (s2 : RecState) : (signalStep now n f s2).startedCount =
      if s2.isRecording then s2.startedCount else s2.startedCount + 1 := by
  by_cases hr : s2.isRecording = true <;>
    simp [signalStep, hr, appendChunk, startRecording]

lemma signalStep_writtenFrames (now : ℚ) (n : Nat) (f : Option Nat)
    (s2 : RecState) : (signalStep now n f s2).writtenFrames =
      (if s2.isRecording then s2.writtenFrames else 0) + n := by
  by_cases hr : s2.isRecording = true <;>
    simp [signalStep, hr, appendChunk, startRecording]

@[simp] lemma signalStep_totalFramesWritten (now : ℚ) (n : Nat) (f : Option Nat)
    (s2 : RecState) : (signalStep now n f s2).totalFramesWritten =
      s2.totalFramesWritten + n := by
  by_cases hr : s2.isRecording = true <;>
    simp [signalStep, hr, appendChunk, startRecording]

lemma writeAudioChunk_empty (now : ℚ) (sm : List ℚ) (f : Option Nat) (s : RecState)
    (h : sm.length = 0) : writeAudioChunk now sm f s = s := by
  simp [writeAudioChunk, h]

lemma writeAudioChunk_gateFail (now : ℚ) (sm : List ℚ) (f : Option Nat) (s : RecState)
    (hsm : ¬sm.length = 0)
    (hdw : frequencyDwelled now (freqStep now f s) = false) :
    writeAudioChunk now sm f s = freqStep now f s := by
  simp [writeAudioChunk, hsm, hdw]

lemma writeAudioChunk_signal (now : ℚ) (sm : List ℚ) (f : Option Nat) (s : RecState)
    (hsm : ¬sm.length = 0)
    (hdw : frequencyDwelled now (freqStep now f s) = true)
    (hsig : hasSignalChunk sm = true) :
    writeAudioChunk now sm f s = signalStep now sm.length f (freqStep now f s) := by
  simp [writeAudioChunk, hsm, hdw, hsig]

lemma writeAudioChunk_noSignal_rec (now : ℚ) (sm : List ℚ) (f : Option Nat)
    (s : RecState) (hsm : ¬sm.length = 0)
    (hdw : frequencyDwelled now (freqStep now f s) = true)
    (hsig : hasSignalChunk sm = false)
    (hr : (freqStep now f s).isRecording = true) :
    writeAudioChunk now sm f s =
      appendChunk sm.length
        { freqStep now f s with chunkCount := (freqStep now f s).chunkCount + 1 } := by
  simp [writeAudioChunk, hsm, hdw, hsig, hr]

lemma writeAudioChunk_noSignal_idle (now : ℚ) (sm : List ℚ) (f : Option Nat)
    (s : RecState) (hsm : ¬sm.length = 0)
    (hdw : frequencyDwelled now (freqStep now f s) = true)
    (hsig : hasSignalChunk sm = false)
    (hr : (freqStep now f s).isRecording = false) :
    writeAudioChunk now sm f s = freqStep now f s := by
  simp [writeAudioChunk, hsm, hdw, hsig, hr]

/-! ### Preservation of the invariant along every serialized event -/

lemma recInv_mk (s : RecState) (t : ℚ)
    (h1 : s.activeCaptures.length = if s.isRecording then 1 else 0)
    (h2 : s.isRecording = true →
      ∃ st, s.freqStableSince = some st ∧ st + FREQ_DWELL_SECONDS ≤ t)
    (h3 : s.freqStableSince.isSome = true → s.lastSeenFreq.isSome = true) :
    RecInv { s with lastTime := t } :=
  ⟨h1, h2, h3⟩

lemma recInv_writeAudioChunk (now : ℚ) (sm : List ℚ) (f : Option Nat) (s : RecState)
    (hInv : RecInv s) (hmono : s.lastTime ≤ now) :
    RecInv { writeAudioChunk now sm f s with lastTime := now } := by
  obtain ⟨h1, h2, h3⟩ := id hInv
  by_cases hsm : sm.length = 0
  · rw [writeAudioChunk_empty now sm f s hsm]
    exact recInv_mk s now h1
      (fun hr => (h2 hr).imp fun st hst => ⟨hst.1, le_trans hst.2 hmono⟩) h3
  · have hlen2 := freqStep_captures now f s h1
    have hinv3' := freqStep_inv3 now f s h3
    by_cases hdw : frequencyDwelled now (freqStep now f s) = true
    · obtain ⟨st, hst, hb⟩ := frequencyDwelled_bound now _ hdw
      by_cases hsig : hasSignalChunk sm = true
      · rw [writeAudioChunk_signal now sm f s hsm hdw hsig]
        refine recInv_mk _ now ?_ ?_ ?_
        · rw [signalStep_activeCaptures, signalStep_isRecording_true]
          by_cases hr : (freqStep now f s).isRecording = true
          · have hone : (freqStep now f s).activeCaptures.length = 1 := by
              rw [hlen2, if_pos hr]
            simp [hr, hone]
          · have hzero : (freqStep now f s).activeCaptures.length = 0 := by
              rw [hlen2, if_neg hr]
            simp [hr, hzero]
        · intro _
          exact ⟨st, by rw [signalStep_freqStableSince]; exact hst, hb⟩
        · rw [signalStep_freqStableSince, signalStep_lastSeenFreq]
          exact hinv3'
      · rw [Bool.not_eq_true] at hsig
        cases hr : (freqStep now f s).isRecording with
        | true =>
            rw [writeAudioChunk_noSignal_rec now sm f s hsm hdw hsig hr]
            refine recInv_mk _ now ?_ ?_ ?_
            · have hone : (freqStep now f s).activeCaptures.length = 1 := by
                rw [hlen2, if_pos hr]
              simp [appendChunk, hr, hone]
            · intro _
              exact ⟨st, hst, hb⟩
            · exact hinv3'
        | false =>
            rw [writeAudioChunk_noSignal_idle now sm f s hsm hdw hsig hr]
            refine recInv_mk _ now ?_ ?_ ?_
            · exact hlen2
            · intro hq; rw [hq] at hr; cases hr
            · exact hinv3'
    · rw [Bool.not_eq_true] at hdw
      rw [writeAudioChunk_gateFail now sm f s hsm hdw]
      refine recInv_mk _ now ?_ ?_ ?_
      · exact hlen2
      · intro hq
        obtain ⟨heq, hsrec⟩ := freqStep_of_recording now f s hInv hq
        obtain ⟨st, hst, hb⟩ := h2 hsrec
        exact ⟨st, by rw [heq]; exact hst, by linarith⟩
      · exact hinv3'

lemma recInv_stopRecording (s : RecState) (hInv : RecInv s) (t : ℚ) :
    RecInv { stopRecording s with lastTime := t } := by
  obtain ⟨h1, h2, h3⟩ := hInv
  refine recInv_mk _ t ?_ ?_ ?_
  · rw [stopRecording_isRecording]
    cases hr : s.isRecording with
    | true => rw [stopRecording_activeCaptures_nil s hr]; rfl
    | false =>
        rw [stopRecording_eq_of_not s hr]
        rw [hr] at h1
        simpa using h1
  · intro hq; rw [stopRecording_isRecording] at hq; cases hq
  · rw [stopRecording_freqStableSince, stopRecording_lastSeenFreq]
    exact h3

lemma recInv_onSilenceTimeout (now : ℚ) (s : RecState)
    (hInv : RecInv s) (hmono : s.lastTime ≤ now) :
    RecInv { onSilenceTimeout now s with lastTime := now } := by
  obtain ⟨h1, h2, h3⟩ := id hInv
  have hkeep : RecInv { s with lastTime := now } :=
    recInv_mk s now h1
      (fun hr => (h2 hr).imp fun st hst => ⟨hst.1, le_trans hst.2 hmono⟩) h3
  by_cases hr : s.isRecording = true
  · cases hls : s.lastSignalTime with
    | none => simpa [onSilenceTimeout, hr, hls] using hkeep
    | some last =>
        by_cases hto : SILENCE_TIMEOUT ≤ now - last
        · simp only [onSilenceTimeout, hr, if_true, hls, if_pos hto]
          exact recInv_stopRecording s hInv now
        · simpa [onSilenceTimeout, hr, hls, hto] using hkeep
  · rw [Bool.not_eq_true] at hr
    simpa [onSilenceTimeout, hr] using hkeep

@[simp] lemma applyEvent_lastTime (e : REvent) (s : RecState) :
    (applyEvent e s).lastTime = e.time := by
  cases e <;> rfl

lemma recInv_applyEvent (e : REvent) (s : RecState)
    (hInv : RecInv s) (hmono : s.lastTime ≤ e.time) : RecInv (applyEvent e s) := by
  cases e with
  | chunk t sm f => exact recInv_writeAudioChunk t sm f s hInv hmono
  | fire t => exact recInv_onSilenceTimeout t s hInv hmono
  | stopReq t => exact recInv_stopRecording s hInv t

lemma chrono_cons (t : ℚ) (e : REvent) (es : List REvent)
    (h : chrono t (e :: es) = true) :
    t ≤ e.time ∧ chrono e.time es = true := by
  simp only [chrono, Bool.and_eq_true, decide_eq_true_eq] at h
  exact h

lemma runEvents_cons (s : RecState) (e : REvent) (es : List REvent) :
    runEvents s (e :: es) = runEvents (applyEvent e s) es := rfl

lemma recInv_runEvents (es : List REvent) : ∀ s : RecState, RecInv s →
    chrono s.lastTime es = true → RecInv (runEvents s es) := by
  induction es with
  | nil => intro s hInv _; exact hInv
  | cons e es ih =>
      intro s hInv hch
      obtain ⟨hle, hch'⟩ := chrono_cons _ e es hch
      rw [runEvents_cons]
      refine ih (applyEvent e s) (recInv_applyEvent e s hInv hle) ?_
      rw [applyEvent_lastTime]
      exact hch'

/-- Every reachable recorder state satisfies the invariant. -/
lemma recReachable_inv (s : RecState) (h : RecReachable s) : RecInv s := by
  obtain ⟨es, hch, rfl⟩ := h
  exact recInv_runEvents es initRecState recInv_init hch

/-! ### Further helper lemmas for the recorder claims -/

@[simp] lemma onSilenceTimeout_startedCount (now : ℚ) (s : RecState) :
    (onSilenceTimeout now s).startedCount = s.startedCount := by
  by_cases hr : s.isRecording = true
  · cases hls : s.lastSignalTime with
    | none => simp [onSilenceTimeout, hr, hls]
    | some last =>
        by_cases hto : SILENCE_TIMEOUT ≤ now - last <;>
          simp [onSilenceTimeout, hr, hls, hto]
  · rw [Bool.not_eq_true] at hr
    simp [onSilenceTimeout, hr]

@[simp] lemma onSilenceTimeout_freqStableSince (now : ℚ) (s : RecState) :
    (onSilenceTimeout now s).freqStableSince = s.freqStableSince := by
  by_cases hr : s.isRecording = true
  · cases hls : s.lastSignalTime with
    | none => simp [onSilenceTimeout, hr, hls]
    | some last =>
        by_cases hto : SILENCE_TIMEOUT ≤ now - last <;>
          simp [onSilenceTimeout, hr, hls, hto]
  · rw [Bool.not_eq_true] at hr
    simp [onSilenceTimeout, hr]

/-- Stopping an active capture finalizes the staging file exactly once:
it is either deleted as too short or handed to conversion. -/
lemma stopRecording_finalizes (s : RecState) (h : s.isRecording = true) :
    (stopRecording s).completed.length + (stopRecording s).deletedShort =
      s.completed.length + s.deletedShort + 1 := by
  simp only [stopRecording, h, if_true]
  split <;> simp +arith

lemma hasFrequencyChanged_none (s : RecState) :
    hasFrequencyChanged none s = false := rfl

lemma freqStep_none (now : ℚ) (s : RecState) : freqStep now none s = s := by
  simp [freqStep, hasFrequencyChanged, trackFrequency]

/-- A chunk carrying no frequency, or the already-observed frequency,
passes the frequency-change handling untouched while a capture is
active. -/
lemma freqStep_eq_self (now : ℚ) (f : Option Nat) (s : RecState)
    (hInv : RecInv s) (hrec : s.isRecording = true)
    (hf : f = none ∨ f = s.lastSeenFreq) : freqStep now f s = s := by
  have hflag : hasFrequencyChanged f s = false := by
    rcases hf with rfl | hfl
    · rfl
    · cases hsl : s.lastSeenFreq with
      | none => rw [hfl, hsl]; rfl
      | some g => rw [hfl, hsl]; simp [hasFrequencyChanged, hsl]
  have hkeep := trackFrequency_of_recording now f s hInv hrec (Or.inr hf)
  simp [freqStep, hflag, hkeep]

/-- While a capture is active, the dwell gate passes at any later
instant: the stability clock was already at least the dwell time in the
past when the capture started and it has not moved since. -/
lemma dwelled_of_recording (now : ℚ) (s : RecState)
    (hInv : RecInv s) (hrec : s.isRecording = true) (hmono : s.lastTime ≤ now) :
    frequencyDwelled now s = true := by
  obtain ⟨st, hst, hb⟩ := hInv.2.1 hrec
  exact frequencyDwelled_of_bound now s st hst (by linarith)

/-- No capture can start while the stability clock sits at an instant
`u ≥ t` and every processed event happens before `t` plus the dwell
time. -/
lemma noStart_before_dwell (t : ℚ) (es : List REvent) : ∀ x : RecState,
    chrono x.lastTime es = true →
    (∀ e ∈ es, e.time < t + FREQ_DWELL_SECONDS) →
    (∃ u, x.freqStableSince = some u ∧ t ≤ u) →
    t ≤ x.lastTime →
    (runEvents x es).startedCount = x.startedCount := by
  induction es with
  | nil => intro x _ _ _ _; rfl
  | cons e es ih =>
      intro x hch hall hu hxt
      obtain ⟨hle, hch'⟩ := chrono_cons _ e es hch
      obtain ⟨u, hust, htu⟩ := hu
      have hetime : e.time < t + FREQ_DWELL_SECONDS := hall e (by simp)
      have hall' : ∀ e' ∈ es, e'.time < t + FREQ_DWELL_SECONDS :=
        fun e' he' => hall e' (by simp [he'])
      have hstable : ∃ u', (applyEvent e x).freqStableSince = some u' ∧ t ≤ u' := by
        cases e with
        | chunk t3 sm f =>
            show ∃ u', (writeAudioChunk t3 sm f x).freqStableSince = some u' ∧ t ≤ u'
            by_cases hsm : sm.length = 0
            · rw [writeAudioChunk_empty t3 sm f x hsm]; exact ⟨u, hust, htu⟩
            · have hgw : frequencyDwelled t3 (freqStep t3 f x) = false := by
                rcases freqStep_freqStableSince t3 f x with hfs | hfs
                · refine (Bool.not_eq_true _).mp fun hdw => ?_
                  obtain ⟨st, hst, hb⟩ := frequencyDwelled_bound t3 _ hdw
                  rw [hfs, hust] at hst
                  cases hst
                  simp only [REvent.time] at hetime
                  linarith
                · refine (Bool.not_eq_true _).mp fun hdw => ?_
                  obtain ⟨st, hst, hb⟩ := frequencyDwelled_bound t3 _ hdw
                  rw [hfs] at hst
                  cases hst
                  simp only [REvent.time] at hetime hle
                  have hd : (0 : ℚ) < FREQ_DWELL_SECONDS := by norm_num [FREQ_DWELL_SECONDS]
                  linarith
              rw [writeAudioChunk_gateFail t3 sm f x hsm hgw]
              rcases freqStep_freqStableSince t3 f x with hfs | hfs
              · exact ⟨u, by rw [hfs]; exact hust, htu⟩
              · refine ⟨t3, hfs, ?_⟩
                simp only [REvent.time] at hle
                linarith
        | fire t3 =>
            show ∃ u', (onSilenceTimeout t3 x).freqStableSince = some u' ∧ t ≤ u'
            rw [onSilenceTimeout_freqStableSince]
            exact ⟨u, hust, htu⟩
        | stopReq t3 =>
            show ∃ u', (stopRecording x).freqStableSince = some u' ∧ t ≤ u'
            rw [stopRecording_freqStableSince]
            exact ⟨u, hust, htu⟩
      have hcount : (applyEvent e x).startedCount = x.startedCount := by
        cases e with
        | chunk t3 sm f =>
            show (writeAudioChunk t3 sm f x).startedCount = x.startedCount
            by_cases hsm : sm.length = 0
            · rw [writeAudioChunk_empty t3 sm f x hsm]
            · have hgw : frequencyDwelled t3 (freqStep t3 f x) = false := by
                rcases freqStep_freqStableSince t3 f x with hfs | hfs
                · refine (Bool.not_eq_true _).mp fun hdw => ?_
                  obtain ⟨st, hst, hb⟩ := frequencyDwelled_bound t3 _ hdw
                  rw [hfs, hust] at hst
                  cases hst
                  simp only [REvent.time] at hetime
                  linarith
                · refine (Bool.not_eq_true _).mp fun hdw => ?_
                  obtain ⟨st, hst, hb⟩ := frequencyDwelled_bound t3 _ hdw
                  rw [hfs] at hst
                  cases hst
                  simp only [REvent.time] at hetime hle
                  have hd : (0 : ℚ) < FREQ_DWELL_SECONDS := by norm_num [FREQ_DWELL_SECONDS]
                  linarith
              rw [writeAudioChunk_gateFail t3 sm f x hsm hgw]
              simp
        | fire t3 => exact onSilenceTimeout_startedCount t3 x
        | stopReq t3 => exact stopRecording_startedCount x
      rw [runEvents_cons, ih (applyEvent e x) (by rw [applyEvent_lastTime]; exact hch')
        hall' hstable (le_trans hxt hle), hcount]

/-! ### Concrete trace evaluations used by the witnesses

`Rat.add` and friends do not reduce definitionally, so the two small
event traces used to exhibit concrete reachable states are evaluated
symbolically here once. -/

lemma evalTrace1 :
    runEvents initRecState [REvent.chunk 0 [1] (some 100)] =
      { initRecState with lastSeenFreq := some 100, freqStableSince := some 0 } := by
  have hdw : frequencyDwelled 0 (freqStep 0 (some 100) initRecState) = false := by
    have hfs : freqStep 0 (some 100) initRecState =
        { initRecState with lastSeenFreq := some 100, freqStableSince := some 0 } := rfl
    rw [hfs]
    norm_num [frequencyDwelled, FREQ_DWELL_SECONDS]
  show { writeAudioChunk 0 [1] (some 100) initRecState with lastTime := (0:ℚ) } = _
  rw [writeAudioChunk_gateFail 0 [1] (some 100) initRecState (by simp) hdw]
  rfl

lemma evalTrace2 :
    runEvents initRecState
      [REvent.chunk 0 [1] (some 100), REvent.chunk 2 [1] (some 100)] =
    { initRecState with
      lastSeenFreq := some 100
      freqStableSince := some 0
      currentFrequencyHz := some 100
      recordingStartTime := some 2
      lastSignalTime := some 2
      isRecording := true
      chunkCount := 1
      writtenFrames := 1
      startedCount := 1
      totalFramesWritten := 1
      activeCaptures := [2]
      silenceTimer := some (2 + SILENCE_TIMEOUT)
      lastTime := 2 } := by
  have h1 : applyEvent (REvent.chunk 0 [1] (some 100)) initRecState =
      { initRecState with lastSeenFreq := some 100, freqStableSince := some 0 } :=
    evalTrace1
  rw [runEvents_cons, h1]
  have hdw : frequencyDwelled 2 (freqStep 2 (some 100)
      { initRecState with lastSeenFreq := some 100, freqStableSince := some 0 }) =
      true := by
    have hfs : freqStep 2 (some 100)
        { initRecState with lastSeenFreq := some 100, freqStableSince := some 0 } =
        { initRecState with lastSeenFreq := some 100, freqStableSince := some 0 } := rfl
    rw [hfs]
    norm_num [frequencyDwelled, FREQ_DWELL_SECONDS]
  have hsig : hasSignalChunk [1] = true := by
    norm_num [hasSignalChunk, computeRmsSq, AUDIO_RMS_THRESHOLD]
  show { writeAudioChunk 2 [1] (some 100)
      { initRecState with lastSeenFreq := some 100, freqStableSince := some 0 }
      with lastTime := (2:ℚ) } = _
  rw [writeAudioChunk_signal 2 [1] (some 100) _ (by simp) hdw hsig]
  rfl

/-! ## Claim C1 -/

/-- Claim C1: For every serialized sequence of recorder operations (audio
chunks with any samples and frequency values, silence-timeout firings,
and stop operations — the serialization the recorder's single lock
enforces), at no point is more than one capture active: the number of
open staging files always equals one exactly when `is_recording` is
true, and in particular never exceeds one. -/
theorem claim1_single_active_capture (es : List REvent)
    (hch : chrono 0 es = true) :
    (runEvents initRecState es).activeCaptures.length =
      (if (runEvents initRecState es).isRecording then 1 else 0) ∧
    (runEvents initRecState es).activeCaptures.length ≤ 1 := by
  have hInv := recInv_runEvents es initRecState recInv_init hch
  refine ⟨hInv.1, ?_⟩
  rw [hInv.1]
  split <;> norm_num

theorem claim1_witness :
    chrono 0 [REvent.chunk 0 [1] (some 145800000),
      REvent.chunk 2 [1] (some 145800000), REvent.fire 6] = true ∧
    (runEvents initRecState [REvent.chunk 0 [1] (some 145800000),
      REvent.chunk 2 [1] (some 145800000), REvent.fire 6]).activeCaptures.length ≤ 1 :=
  ⟨by decide,
   (claim1_single_active_capture [REvent.chunk 0 [1] (some 145800000),
      REvent.chunk 2 [1] (some 145800000), REvent.fire 6] (by decide)).2⟩

/-! ## Claim C2 -/

/-- Claim C2: When a capture is stopped, its duration is computed from the
staged file's byte length under the fixed sample format (12 kHz, 16-bit,
mono; hence `writtenFrames / 12000` seconds), a value independent of any
wall-clock field; the staging file is deleted exactly when that duration
is strictly below `MIN_DURATION_SECONDS` and handed to the asynchronous
conversion task when it is greater than or equal to it, so the boundary
(36000 frames = exactly 3 s) is kept and one sample-frame below is
deleted. -/
theorem claim2_duration_policy (s : RecState) (hrec : s.isRecording = true) :
    audioDerivedDuration s = (s.writtenFrames : ℚ) / 12000 ∧
    (∀ s' : RecState, s'.writtenFrames = s.writtenFrames →
      audioDerivedDuration s' = audioDerivedDuration s) ∧
    (audioDerivedDuration s < MIN_DURATION_SECONDS ↔ s.writtenFrames < 36000) ∧
    (s.writtenFrames < 36000 →
      (stopRecording s).deletedShort = s.deletedShort + 1 ∧
      (stopRecording s).completed = s.completed) ∧
    (36000 ≤ s.writtenFrames →
      (stopRecording s).completed =
        s.completed ++ [⟨s.currentFrequencyHz, s.writtenFrames⟩] ∧
      (stopRecording s).deletedShort = s.deletedShort) := by
  have hsub : (wavFileSize s - 44 : Nat) = 2 * s.writtenFrames := by
    simp [wavFileSize]
  have hdur : audioDerivedDuration s = (s.writtenFrames : ℚ) / 12000 := by
    rw [audioDerivedDuration, hsub]
    push_cast
    field_simp
    ring
  have hiff : audioDerivedDuration s < MIN_DURATION_SECONDS ↔
      s.writtenFrames < 36000 := by
    rw [hdur]
    constructor
    · intro h
      rw [div_lt_iff₀ (by norm_num : (0:ℚ) < 12000)] at h
      norm_num [MIN_DURATION_SECONDS] at h
      exact_mod_cast h
    · intro h
      rw [div_lt_iff₀ (by norm_num : (0:ℚ) < 12000)]
      norm_num [MIN_DURATION_SECONDS]
      exact_mod_cast h
  refine ⟨hdur, ?_, hiff, ?_, ?_⟩
  · intro s' hfr
    rw [audioDerivedDuration, audioDerivedDuration, wavFileSize, wavFileSize, hfr]
  · intro hlt
    have hd : audioDerivedDuration s < MIN_DURATION_SECONDS := hiff.mpr hlt
    simp [stopRecording, hrec, hd]
  · intro hge
    have hd : ¬audioDerivedDuration s < MIN_DURATION_SECONDS := by
      rw [hiff]; omega
    simp [stopRecording, hrec, hd]

theorem claim2_witness :
    (stopRecording { initRecState with
        isRecording := true, writtenFrames := 36000 }).completed =
      [⟨none, 36000⟩] ∧
    (stopRecording { initRecState with
        isRecording := true, writtenFrames := 35999 }).deletedShort = 1 := by
  have hk := claim2_duration_policy
    { initRecState with isRecording := true, writtenFrames := 36000 } rfl
  have hs := claim2_duration_policy
    { initRecState with isRecording := true, writtenFrames := 35999 } rfl
  refine ⟨?_, ?_⟩
  · rw [(hk.2.2.2.2 (by decide)).1]
    rfl
  · rw [(hs.2.2.2.1 (by decide)).1]
    rfl

/-! ## Claim C3 -/

/-- Claim C3: A call to `write_audio_chunk` carrying a non-`None`
frequency that differs from the last observed value resets the dwell
tracker's stability clock to now; an active capture is stopped
immediately within that same call (its staging file is finalized:
deleted or handed to conversion); and no new capture starts afterwards
until the new frequency has been stable for `FREQ_DWELL_SECONDS` —
whatever events arrive strictly before `now + FREQ_DWELL_SECONDS`, the
number of captures ever started does not grow. -/
theorem claim3_frequency_change (s : RecState) (now : ℚ) (sm : List ℚ)
    (g f : Nat) (_hre : RecReachable s) (_hmono : s.lastTime ≤ now)
    (hlast : s.lastSeenFreq = some g) (hne : f ≠ g) (hsm : ¬sm.length = 0) :
    (writeAudioChunk now sm (some f) s).freqStableSince = some now ∧
    (writeAudioChunk now sm (some f) s).isRecording = false ∧
    (writeAudioChunk now sm (some f) s).startedCount = s.startedCount ∧
    (s.isRecording = true →
      (writeAudioChunk now sm (some f) s).completed.length +
          (writeAudioChunk now sm (some f) s).deletedShort =
        s.completed.length + s.deletedShort + 1) ∧
    (∀ es, chrono now es = true →
      (∀ e ∈ es, e.time < now + FREQ_DWELL_SECONDS) →
      (runEvents (applyEvent (REvent.chunk now sm (some f)) s) es).startedCount =
        s.startedCount) := by
  have hgf : ¬g = f := fun h => hne h.symm
  have hnel : ¬s.lastSeenFreq = some f := by
    rw [hlast]
    exact fun hx => hne (Option.some.inj hx).symm
  have hs1 : trackFrequency now (some f) s =
      { s with lastSeenFreq := some f, freqStableSince := some now } := by
    simp [trackFrequency, hlast, hgf]
  have hflag : hasFrequencyChanged (some f) s = true := by
    simp [hasFrequencyChanged, hlast, hgf]
  have hF : freqStep now (some f) s =
      if s.isRecording then
        stopRecording { s with lastSeenFreq := some f, freqStableSince := some now }
      else { s with lastSeenFreq := some f, freqStableSince := some now } := by
    simp only [freqStep, hs1, hflag]
    cases hr : s.isRecording <;> simp [hr]
  have hFstable : (freqStep now (some f) s).freqStableSince = some now := by
    rw [hF]; cases hr : s.isRecording <;> simp [hr]
  have hFrec : (freqStep now (some f) s).isRecording = false := by
    rw [hF]; cases hr : s.isRecording <;> simp [hr]
  have hgw : frequencyDwelled now (freqStep now (some f) s) = false := by
    simp only [frequencyDwelled, hFstable]
    simp [FREQ_DWELL_SECONDS]
  have hw : writeAudioChunk now sm (some f) s = freqStep now (some f) s :=
    writeAudioChunk_gateFail now sm (some f) s hsm hgw
  refine ⟨by rw [hw]; exact hFstable, by rw [hw]; exact hFrec,
    by rw [hw]; simp, ?_, ?_⟩
  · intro hrec
    rw [hw, hF, if_pos hrec]
    exact stopRecording_finalizes
      { s with lastSeenFreq := some f, freqStableSince := some now } hrec
  · intro es hch hall
    have hx : (applyEvent (REvent.chunk now sm (some f)) s).startedCount =
        s.startedCount := by
      show (writeAudioChunk now sm (some f) s).startedCount = s.startedCount
      rw [hw]; simp
    have hstable : (applyEvent (REvent.chunk now sm (some f)) s).freqStableSince =
        some now := by
      show (writeAudioChunk now sm (some f) s).freqStableSince = some now
      rw [hw]; exact hFstable
    have hlt : now ≤ (applyEvent (REvent.chunk now sm (some f)) s).lastTime :=
      le_of_eq (Eq.symm (applyEvent_lastTime (REvent.chunk now sm (some f)) s))
    rw [noStart_before_dwell now es (applyEvent (REvent.chunk now sm (some f)) s)
      (by rw [applyEvent_lastTime]; exact hch) hall ⟨now, hstable, le_refl now⟩ hlt]
    exact hx

theorem claim3_witness :
    (writeAudioChunk 3 [1] (some 200)
        (runEvents initRecState
          [REvent.chunk 0 [1] (some 100),
           REvent.chunk 2 [1] (some 100)])).isRecording = false ∧
    (runEvents (applyEvent (REvent.chunk 3 [1] (some 200))
        (runEvents initRecState
          [REvent.chunk 0 [1] (some 100), REvent.chunk 2 [1] (some 100)]))
      [REvent.chunk 4 [1] (some 200)]).startedCount =
      (runEvents initRecState
        [REvent.chunk 0 [1] (some 100),
         REvent.chunk 2 [1] (some 100)]).startedCount := by
  have h := claim3_frequency_change
    (runEvents initRecState
      [REvent.chunk 0 [1] (some 100), REvent.chunk 2 [1] (some 100)])
    3 [1] 100 200
    ⟨[REvent.chunk 0 [1] (some 100), REvent.chunk 2 [1] (some 100)],
      by decide, rfl⟩
    (by rw [evalTrace2]; show (2:ℚ) ≤ 3; norm_num)
    (by rw [evalTrace2])
    (by decide) (by simp)
  refine ⟨h.2.1, h.2.2.2.2 [REvent.chunk 4 [1] (some 200)] (by decide) ?_⟩
  intro e he
  simp only [List.mem_singleton] at he
  subst he
  show (4:ℚ) < 3 + FREQ_DWELL_SECONDS
  norm_num [FREQ_DWELL_SECONDS]

/-! ## Claim C4 -/

/-- Claim C4: The dwell gate only prevents a new capture from starting.
First conjunct: when the gate fails for a (nonempty) chunk, no capture
starts and in fact no capture is active at all after the call — the
forced stop of step 3 and the reachability invariant make "active
capture while not dwelled" impossible, so the gate's early return never
discards samples of an active capture.  Second conjunct: a chunk
arriving while a capture is active (and not carrying a differing
frequency, which would stop the capture first) always has its samples
appended to the staging file, signal or not. -/
theorem claim4_dwell_gates_start_only (s : RecState) (now : ℚ) (sm : List ℚ)
    (f : Option Nat) (hre : RecReachable s) (hmono : s.lastTime ≤ now) :
    (¬sm.length = 0 → frequencyDwelled now (freqStep now f s) = false →
      (writeAudioChunk now sm f s).startedCount = s.startedCount ∧
      (writeAudioChunk now sm f s).isRecording = false) ∧
    (s.isRecording = true → (f = none ∨ f = s.lastSeenFreq) → ¬sm.length = 0 →
      (writeAudioChunk now sm f s).writtenFrames = s.writtenFrames + sm.length ∧
      (writeAudioChunk now sm f s).totalFramesWritten =
        s.totalFramesWritten + sm.length) := by
  have hInv := recReachable_inv s hre
  constructor
  · intro hsm hgw
    rw [writeAudioChunk_gateFail now sm f s hsm hgw]
    refine ⟨by simp, ?_⟩
    cases hq : (freqStep now f s).isRecording with
    | false => rfl
    | true =>
        exfalso
        obtain ⟨heq, hsrec⟩ := freqStep_of_recording now f s hInv hq
        rw [heq] at hgw
        rw [dwelled_of_recording now s hInv hsrec hmono] at hgw
        cases hgw
  · intro hrec hf hsm
    have hFs := freqStep_eq_self now f s hInv hrec hf
    have hdw : frequencyDwelled now (freqStep now f s) = true := by
      rw [hFs]; exact dwelled_of_recording now s hInv hrec hmono
    by_cases hsig : hasSignalChunk sm = true
    · rw [writeAudioChunk_signal now sm f s hsm hdw hsig]
      rw [signalStep_writtenFrames, signalStep_totalFramesWritten, hFs]
      simp [hrec]
    · rw [Bool.not_eq_true] at hsig
      rw [writeAudioChunk_noSignal_rec now sm f s hsm hdw hsig (by rw [hFs]; exact hrec)]
      simp [appendChunk, hFs]

theorem claim4_witness :
    (writeAudioChunk 1 [1] none
        (runEvents initRecState [REvent.chunk 0 [1] (some 100)])).startedCount =
      (runEvents initRecState [REvent.chunk 0 [1] (some 100)]).startedCount ∧
    (writeAudioChunk 3 [1, 1] none
        (runEvents initRecState
          [REvent.chunk 0 [1] (some 100),
           REvent.chunk 2 [1] (some 100)])).writtenFrames =
      (runEvents initRecState
        [REvent.chunk 0 [1] (some 100),
         REvent.chunk 2 [1] (some 100)]).writtenFrames + 2 := by
  have h1 := claim4_dwell_gates_start_only
    (runEvents initRecState [REvent.chunk 0 [1] (some 100)]) 1 [1] none
    ⟨[REvent.chunk 0 [1] (some 100)], by decide, rfl⟩
    (by rw [evalTrace1]; show (0:ℚ) ≤ 1; norm_num)
  have h2 := claim4_dwell_gates_start_only
    (runEvents initRecState
      [REvent.chunk 0 [1] (some 100), REvent.chunk 2 [1] (some 100)])
    3 [1, 1] none
    ⟨[REvent.chunk 0 [1] (some 100), REvent.chunk 2 [1] (some 100)],
      by decide, rfl⟩
    (by rw [evalTrace2]; show (2:ℚ) ≤ 3; norm_num)
  have hgw : frequencyDwelled 1 (freqStep 1 none
      (runEvents initRecState [REvent.chunk 0 [1] (some 100)])) = false := by
    rw [evalTrace1, freqStep_none]
    norm_num [frequencyDwelled, FREQ_DWELL_SECONDS]
  have hrec : (runEvents initRecState
      [REvent.chunk 0 [1] (some 100),
       REvent.chunk 2 [1] (some 100)]).isRecording = true := by
    rw [evalTrace2]
  exact ⟨(h1.1 (by simp) hgw).1, (h2.2 hrec (Or.inl rfl) (by simp)).1⟩

/-! ## Claim C8 -/

/-- Claim C8: Silence-timeout semantics.  First conjunct: when the timer
callback runs (under the recorder's lock) it re-checks the elapsed time
since `last_signal_time`; if a chunk has refreshed it so that less than
`SILENCE_TIMEOUT` has elapsed, the callback changes nothing — the
pending stop is effectively cancelled even if a stale timer fires.
Second conjunct: silence for exactly `SILENCE_TIMEOUT` seconds after the
last signal-bearing chunk stops the active capture.  Third conjunct: a
signal-bearing chunk arriving while a capture is active refreshes
`last_signal_time` to now and replaces the timer with a fresh deadline
`now + SILENCE_TIMEOUT` (cancel plus re-arm). -/
theorem claim8_silence_timeout :
    (∀ (s : RecState) (now last : ℚ), s.isRecording = true →
      s.lastSignalTime = some last → now - last < SILENCE_TIMEOUT →
      onSilenceTimeout now s = s) ∧
    (∀ (s : RecState) (now last : ℚ), s.isRecording = true →
      s.lastSignalTime = some last → now - last = SILENCE_TIMEOUT →
      (onSilenceTimeout now s).isRecording = false ∧
      onSilenceTimeout now s = stopRecording s) ∧
    (∀ (s : RecState) (now : ℚ) (sm : List ℚ) (f : Option Nat),
      RecReachable s → s.lastTime ≤ now → s.isRecording = true →
      (f = none ∨ f = s.lastSeenFreq) → hasSignalChunk sm = true →
      ¬sm.length = 0 →
      (writeAudioChunk now sm f s).silenceTimer = some (now + SILENCE_TIMEOUT) ∧
      (writeAudioChunk now sm f s).lastSignalTime = some now) := by
  refine ⟨?_, ?_, ?_⟩
  · intro s now last hrec hls hlt
    have hto : ¬SILENCE_TIMEOUT ≤ now - last := by linarith
    simp [onSilenceTimeout, hrec, hls, hto]
  · intro s now last hrec hls heq
    have hto : SILENCE_TIMEOUT ≤ now - last := le_of_eq heq.symm
    have hstop : onSilenceTimeout now s = stopRecording s := by
      simp [onSilenceTimeout, hrec, hls, hto]
    exact ⟨by rw [hstop, stopRecording_isRecording], hstop⟩
  · intro s now sm f hre hmono hrec hf hsig hsm
    have hInv := recReachable_inv s hre
    have hFs := freqStep_eq_self now f s hInv hrec hf
    have hdw : frequencyDwelled now (freqStep now f s) = true := by
      rw [hFs]; exact dwelled_of_recording now s hInv hrec hmono
    rw [writeAudioChunk_signal now sm f s hsm hdw hsig]
    exact ⟨signalStep_silenceTimer now sm.length f _,
      signalStep_lastSignalTime now sm.length f _⟩

theorem claim8_witness :
    onSilenceTimeout 4 { initRecState with
        isRecording := true, lastSignalTime := some 2, activeCaptures := [0] } =
      { initRecState with
        isRecording := true, lastSignalTime := some 2, activeCaptures := [0] } ∧
    (onSilenceTimeout 5 { initRecState with
        isRecording := true, lastSignalTime := some 2,
        activeCaptures := [0] }).isRecording = false ∧
    (writeAudioChunk 3 [1] none
        (runEvents initRecState
          [REvent.chunk 0 [1] (some 100),
           REvent.chunk 2 [1] (some 100)])).lastSignalTime = some 3 := by
  have h1 := claim8_silence_timeout.1
    { initRecState with
      isRecording := true, lastSignalTime := some 2, activeCaptures := [0] }
    4 2 rfl rfl (by norm_num [SILENCE_TIMEOUT])
  have h2 := claim8_silence_timeout.2.1
    { initRecState with
      isRecording := true, lastSignalTime := some 2, activeCaptures := [0] }
    5 2 rfl rfl (by norm_num [SILENCE_TIMEOUT])
  have hrec : (runEvents initRecState
      [REvent.chunk 0 [1] (some 100),
       REvent.chunk 2 [1] (some 100)]).isRecording = true := by
    rw [evalTrace2]
  have hsig : hasSignalChunk [1] = true := by
    norm_num [hasSignalChunk, computeRmsSq, AUDIO_RMS_THRESHOLD]
  have h3 := claim8_silence_timeout.2.2
    (runEvents initRecState
      [REvent.chunk 0 [1] (some 100), REvent.chunk 2 [1] (some 100)])
    3 [1] none
    ⟨[REvent.chunk 0 [1] (some 100), REvent.chunk 2 [1] (some 100)],
      by decide, rfl⟩
    (by rw [evalTrace2]; show (2:ℚ) ≤ 3; norm_num)
    hrec (Or.inl rfl) hsig (by simp)
  exact ⟨h1, h2.1, h3.2⟩

/-! ## Claim C10 -/

lemma c10_aux (es : List REvent) : ∀ x : RecState,
    x.freqStableSince = none → x.isRecording = false →
    (∀ e ∈ es, ∀ (t : ℚ) (sm : List ℚ) (f : Option Nat),
      e = REvent.chunk t sm f → f = none) →
    (runEvents x es).freqStableSince = none ∧
    (runEvents x es).isRecording = false ∧
    (runEvents x es).startedCount = x.startedCount ∧
    (runEvents x es).totalFramesWritten = x.totalFramesWritten ∧
    (runEvents x es).completed = x.completed := by
  induction es with
  | nil => intro x h1 h2 _; exact ⟨h1, h2, rfl, rfl, rfl⟩
  | cons e es ih =>
      intro x h1 h2 hnone
      have hstep : applyEvent e x = { x with lastTime := e.time } := by
        cases e with
        | chunk t sm f =>
            have hfn : f = none := hnone _ (by simp) t sm f rfl
            subst hfn
            show { writeAudioChunk t sm none x with lastTime := t } = _
            by_cases hsm : sm.length = 0
            · rw [writeAudioChunk_empty t sm none x hsm]
              rfl
            · have hgw : frequencyDwelled t (freqStep t none x) = false := by
                rw [freqStep_none]
                simp [frequencyDwelled, h1]
              rw [writeAudioChunk_gateFail t sm none x hsm hgw, freqStep_none]
              rfl
        | fire t =>
            show { onSilenceTimeout t x with lastTime := t } = _
            simp [onSilenceTimeout, h2, REvent.time]
        | stopReq t =>
            show { stopRecording x with lastTime := t } = _
            rw [stopRecording_eq_of_not x h2]
            rfl
      have hrest := ih { x with lastTime := e.time } h1 h2
        (fun e' he' => hnone e' (by simp [he']))
      rw [runEvents_cons, hstep]
      exact hrest

/-- Claim C10: If every audio chunk ever submitted carries
`frequencyHz = None`, the recorder never starts a capture and never
writes any audio, however energetic the chunks: the stability clock is
only ever set by a non-`None` frequency, so the dwell gate never opens
and every chunk is discarded. -/
theorem claim10_no_frequency_no_capture (es : List REvent)
    (hnone : ∀ e ∈ es, ∀ (t : ℚ) (sm : List ℚ) (f : Option Nat),
      e = REvent.chunk t sm f → f = none) :
    (runEvents initRecState es).startedCount = 0 ∧
    (runEvents initRecState es).totalFramesWritten = 0 ∧
    (runEvents initRecState es).isRecording = false ∧
    (runEvents initRecState es).completed = [] := by
  obtain ⟨-, k2, k3, k4, k5⟩ := c10_aux es initRecState rfl rfl hnone
  exact ⟨k3, k4, k2, k5⟩

theorem claim10_witness :
    (runEvents initRecState
      [REvent.chunk 0 [1] none, REvent.fire 1,
       REvent.chunk 2 [1, 1] none]).startedCount = 0 ∧
    (runEvents initRecState
      [REvent.chunk 0 [1] none, REvent.fire 1,
       REvent.chunk 2 [1, 1] none]).totalFramesWritten = 0 := by
  have h := claim10_no_frequency_no_capture
    [REvent.chunk 0 [1] none, REvent.fire 1, REvent.chunk 2 [1, 1] none]
    (by
      intro e he t sm f hef
      rcases (by simpa using he : e = REvent.chunk 0 [1] none ∨
          e = REvent.fire 1 ∨ e = REvent.chunk 2 [1, 1] none) with rfl | rfl | rfl
      · cases hef; rfl
      · cases hef
      · cases hef; rfl)
  exact ⟨h.1, h.2.1⟩

/-! ## Orchestrator lemmas and claim C5 -/

lemma exitAutoMode_state (s : OrchState) :
    (exitAutoMode s).state = AutoModeState.manual := by
  simp only [exitAutoMode]
  repeat' split
  all_goals rfl

lemma enterAutoMode_state (s : OrchState) :
    (enterAutoMode s).state = AutoModeState.auto := by
  by_cases ht : s.hasTuner = true <;> simp [enterAutoMode, ht]

lemma exitAutoMode_noop (s : OrchState) (h : s.state = AutoModeState.manual) :
    exitAutoMode s = s := by
  have hs0 : { s with state := AutoModeState.manual } = s := by
    cases s
    simp_all
  simp [exitAutoMode, h, hs0]

lemma exitAutoMode_idem (s : OrchState) :
    exitAutoMode (exitAutoMode s) = exitAutoMode s :=
  exitAutoMode_noop (exitAutoMode s) (exitAutoMode_state s)

lemma exitAutoMode_auto_restore (s : OrchState) (v : TunerSettings)
    (hst : s.state = AutoModeState.auto) (ht : s.hasTuner = true)
    (hv : s.savedUserSettings = some v) :
    (exitAutoMode s).restores = s.restores ++ [v] ∧
    (exitAutoMode s).savedUserSettings = none := by
  by_cases hd : s.hasDecoder = true <;> by_cases hr : s.hasRecorder = true <;>
    simp [exitAutoMode, hst, ht, hv, hd, hr]

lemma orchStep_not_idle (s : OrchState) (e : OrchEvent)
    (h : ¬s.state = AutoModeState.idle) :
    ¬(orchStep s e).state = AutoModeState.idle := by
  cases e with
  | clientsGone =>
      by_cases hc : s.state = AutoModeState.manual <;>
        simp [orchStep, hc, enterAutoMode_state, h]
  | clientConn =>
      by_cases hc : s.state = AutoModeState.auto <;>
        simp [orchStep, hc, exitAutoMode_state, h]
  | forceEnter =>
      by_cases hc : s.state = AutoModeState.manual <;>
        simp [orchStep, hc, enterAutoMode_state, h]
  | forceExit =>
      by_cases hc : s.state = AutoModeState.auto <;>
        simp [orchStep, hc, exitAutoMode_state, h]
  | stopOrch =>
      by_cases hc : s.state = AutoModeState.auto <;>
        simp [orchStep, hc, exitAutoMode_state, h]

lemma orchRun_not_idle (es : List OrchEvent) : ∀ s : OrchState,
    ¬s.state = AutoModeState.idle →
    ¬(es.foldl orchStep s).state = AutoModeState.idle := by
  induction es with
  | nil => intro s h; exact h
  | cons e es ih =>
      intro s h
      exact ih (orchStep s e) (orchStep_not_idle s e h)

/-- Claim C5: Exit-from-AUTO is idempotent.  Invoking it in MANUAL is a
strict no-op; reachable orchestrator states are never IDLE (the enum
value is declared but unassigned), so "not in AUTO" means MANUAL for
the running system; a double invocation equals a single one as a plain
function equality; and from AUTO with a tuner and a saved snapshot the
snapshot is restored exactly once, cleared, the final state is MANUAL,
and the second invocation adds no further restore. -/
theorem claim5_exit_idempotent :
    (∀ s : OrchState, s.state = AutoModeState.manual → exitAutoMode s = s) ∧
    (∀ s : OrchState, exitAutoMode (exitAutoMode s) = exitAutoMode s) ∧
    (∀ s : OrchState, OrchReachable s → ¬s.state = AutoModeState.idle) ∧
    (∀ (s : OrchState) (v : TunerSettings), s.state = AutoModeState.auto →
      s.hasTuner = true → s.savedUserSettings = some v →
      (exitAutoMode s).restores = s.restores ++ [v] ∧
      (exitAutoMode s).savedUserSettings = none ∧
      (exitAutoMode s).state = AutoModeState.manual ∧
      (exitAutoMode (exitAutoMode s)).restores = s.restores ++ [v]) := by
  refine ⟨exitAutoMode_noop, exitAutoMode_idem, ?_, ?_⟩
  · intro s hre
    obtain ⟨ht, hd, hr, tc, es, rfl⟩ := hre
    exact orchRun_not_idle es (initOrchState ht hd hr tc) (by simp [initOrchState])
  · intro s v hst ht hv
    obtain ⟨k1, k2⟩ := exitAutoMode_auto_restore s v hst ht hv
    refine ⟨k1, k2, exitAutoMode_state s, ?_⟩
    rw [exitAutoMode_idem s]
    exact k1

theorem claim5_witness :
    exitAutoMode
        (initOrchState true true true ⟨some 7000000, some "AM", none, none, false⟩) =
      initOrchState true true true ⟨some 7000000, some "AM", none, none, false⟩ ∧
    (exitAutoMode (enterAutoMode
        (initOrchState true true true
          ⟨some 7000000, some "AM", none, none, false⟩))).restores =
      [⟨some 7000000, some "AM", none, none, false⟩] ∧
    ¬(List.foldl orchStep
        (initOrchState true true true ⟨some 7000000, some "AM", none, none, false⟩)
        [OrchEvent.clientsGone]).state = AutoModeState.idle := by
  refine ⟨claim5_exit_idempotent.1 _ rfl, ?_, ?_⟩
  · have h := (claim5_exit_idempotent.2.2.2
      (enterAutoMode (initOrchState true true true
        ⟨some 7000000, some "AM", none, none, false⟩))
      ⟨some 7000000, some "AM", none, none, false⟩ rfl rfl rfl).1
    rw [h]
    rfl
  · exact claim5_exit_idempotent.2.2.1 _
      ⟨true, true, true, ⟨some 7000000, some "AM", none, none, false⟩,
        [OrchEvent.clientsGone], rfl⟩

/-! ## Claim C6 -/

/-- Claim C6: In a scan-loop iteration with a wired tuner and a nonempty
frequency list: a tuning failure does not advance
`current_frequency_index`, backs off, and leaves the examined profile
unchanged — the same profile is retried next iteration; the index
advances to `(index + 1) mod len(frequencies)` exactly when the
iteration tuned successfully and was still in AUTO after its dwell. -/
theorem claim6_tune_failure_no_advance (env : ScanEnv) (s : ScanState)
    (hne : ¬s.frequencies = []) (ht : env.hasTuner = true) :
    (env.tuneSuccess = false →
      (handleAutoMode env s).currentFrequencyIndex = s.currentFrequencyIndex ∧
      (handleAutoMode env s).backoffs = s.backoffs + 1 ∧
      examinedProfile (handleAutoMode env s) = examinedProfile s) ∧
    (env.tuneSuccess = true → env.stateAfterDwell = AutoModeState.auto →
      (handleAutoMode env s).currentFrequencyIndex =
        (s.currentFrequencyIndex + 1) % s.frequencies.length) ∧
    (env.tuneSuccess = true → ¬env.stateAfterDwell = AutoModeState.auto →
      (handleAutoMode env s).currentFrequencyIndex = s.currentFrequencyIndex) := by
  have hie : s.frequencies.isEmpty = false := by
    cases hl : s.frequencies with
    | nil => exact absurd hl hne
    | cons a l => rfl
  refine ⟨?_, ?_, ?_⟩
  · intro hfail
    simp [handleAutoMode, hie, ht, hfail, examinedProfile]
  · intro hok hauto
    by_cases hd : (env.hasDecoder && env.enableDecoders) = true <;>
      simp [handleAutoMode, hie, ht, hok, hauto, hd]
  · intro hok hnotauto
    by_cases hd : (env.hasDecoder && env.enableDecoders) = true <;>
      simp [handleAutoMode, hie, ht, hok, hnotauto, hd]

theorem claim6_witness :
    (handleAutoMode
        ⟨true, false, true, true, true, true, AutoModeState.auto⟩
        ⟨0, [⟨145800000, "NFM", none, some 12500, 60, "APRS 2m"⟩], 0, 0⟩
      ).currentFrequencyIndex = 0 ∧
    (handleAutoMode
        ⟨true, true, true, true, true, true, AutoModeState.auto⟩
        ⟨0, [⟨145800000, "NFM", none, some 12500, 60, "A"⟩,
             ⟨14074000, "USB", none, some 2500, 120, "B"⟩], 0, 0⟩
      ).currentFrequencyIndex = 1 := by
  have h1 := claim6_tune_failure_no_advance
    ⟨true, false, true, true, true, true, AutoModeState.auto⟩
    ⟨0, [⟨145800000, "NFM", none, some 12500, 60, "APRS 2m"⟩], 0, 0⟩
    (by simp) rfl
  have h2 := claim6_tune_failure_no_advance
    ⟨true, true, true, true, true, true, AutoModeState.auto⟩
    ⟨0, [⟨145800000, "NFM", none, some 12500, 60, "A"⟩,
         ⟨14074000, "USB", none, some 2500, 120, "B"⟩], 0, 0⟩
    (by simp) rfl
  exact ⟨(h1.1 rfl).1, h2.2.1 rfl rfl⟩

/-! ## Claim C7 -/

/-- Claim C7: After any sequence of `clientConnected`/`clientDisconnected`
calls, `hasRemoteClients()` is true exactly when some currently tracked
client witnesses it: any client at all under the
`consider_local_clients` policy, otherwise a client whose address
classifies as remote under `is_local_ip` against the configured local
address set evaluated at query time. -/
theorem claim7_has_remote_clients (cfg : MonitorConfig) (ops : List MOp) :
    hasRemoteClients cfg (runMonitor ops) = true ↔
      ∃ p ∈ (runMonitor ops).clients,
        cfg.considerLocalClients = true ∨ isLocalIp cfg p.2 = false := by
  cases hc : cfg.considerLocalClients with
  | false =>
      rw [hasRemoteClients, if_neg (by simp [hc]), List.any_eq_true]
      constructor
      · rintro ⟨p, hp, hb⟩
        exact ⟨p, hp, Or.inr (by simpa using hb)⟩
      · rintro ⟨p, hp, hb⟩
        rcases hb with hb | hb
        · cases hb
        · exact ⟨p, hp, by simpa using hb⟩
  | true =>
      rw [hasRemoteClients, if_pos (by simp [hc])]
      constructor
      · intro h
        obtain ⟨p, hp⟩ := List.exists_mem_of_length_pos (of_decide_eq_true h)
        exact ⟨p, hp, Or.inl rfl⟩
      · rintro ⟨p, hp, -⟩
        exact decide_eq_true (List.length_pos_of_mem hp)

/-! ## Claim C9 -/

/-- Claim C9 counterexample: A receiver exposing mode, squelch and
bandwidth capabilities but no frequency-setting method makes
`tune_frequency` report failure: the frequency setter is not
independently optional — its failure is fatal to the overall tune
operation, contradicting the claim that tune still reports success when
any individual setter cannot be applied. -/
theorem claim9_counterexample :
    (tuneFrequency
      (some ⟨false, false, false, true, true, true, true, true, true⟩)
      145800000 (some "NFM") none (some 12500) initTunerState).1 = false := rfl

/-- Claim C9 amended: Mode, squelch and bandwidth are each independently
optional-capable: whatever their capability flags, `tune_frequency`
still reports success once the frequency was set, and a failed setter
is logged as a warning; but the absence of every frequency-setting
method — or of the receiver itself — is fatal and the overall tune
reports failure. -/
theorem claim9_soft_failures_amended :
    (∀ (r : Receiver) (frequency : Nat) (mode : Option String) (squelch : Option ℚ)
      (bandwidth : Option Nat) (s : TunerState), setFrequencyCap r = true →
      (tuneFrequency (some r) frequency mode squelch bandwidth s).1 = true) ∧
    (∀ (r : Receiver) (frequency : Nat) (mode : Option String) (squelch : Option ℚ)
      (bandwidth : Option Nat) (s : TunerState), setFrequencyCap r = false →
      (tuneFrequency (some r) frequency mode squelch bandwidth s).1 = false) ∧
    (∀ (frequency : Nat) (mode : Option String) (squelch : Option ℚ)
      (bandwidth : Option Nat) (s : TunerState),
      (tuneFrequency none frequency mode squelch bandwidth s).1 = false) ∧
    (∀ (r : Receiver) (m : String) (frequency : Nat) (s : TunerState),
      setFrequencyCap r = true → ¬m = "" → setModeCap r = false →
      (tuneFrequency (some r) frequency (some m) none none s).2.warnings =
        s.warnings + 1) := by
  refine ⟨?_, ?_, ?_, ?_⟩
  · intro r frequency mode squelch bandwidth s hf
    simp [tuneFrequency, hf]
  · intro r frequency mode squelch bandwidth s hf
    simp [tuneFrequency, hf]
  · intro frequency mode squelch bandwidth s
    rfl
  · intro r m frequency s hf hm hmc
    simp [tuneFrequency, hf, hm, hmc]

theorem claim9_witness :
    (tuneFrequency
      (some ⟨true, false, false, false, false, false, false, false, false⟩)
      14074000 (some "USB") none (some 2500) initTunerState).1 = true ∧
    (tuneFrequency
      (some ⟨true, false, false, false, false, false, false, false, false⟩)
      14074000 (some "USB") none none initTunerState).2.warnings = 1 := by
  refine ⟨claim9_soft_failures_amended.1
    ⟨true, false, false, false, false, false, false, false, false⟩
    14074000 (some "USB") none (some 2500) initTunerState rfl, ?_⟩
  have h := claim9_soft_failures_amended.2.2.2
    ⟨true, false, false, false, false, false, false, false, false⟩
    "USB" 14074000 initTunerState rfl (by simp) rfl
  rw [h]
  rfl

end Owrx
